import Mathlib

/-!
Verification of the Expert Ranking Engine and Record Cache of the
GitHub-expert-finder repository.  Scores computed with Python floats are
modelled over ℚ; the pipeline in `src/query.py` and the cache logic in
`src/cache_manager.py` are embedded as executable Lean functions, and
the specification's claims about them are settled as theorems.
-/

namespace Ezra

/-- Configuration constant `MIN_SUBSTANTIAL_PR_LINES` from `config.py`. -/
def MIN_SUBSTANTIAL_PR_LINES : ℕ := 100

/-- Configuration constant `MIN_EXPERT_PRS` from `config.py`. -/
def MIN_EXPERT_PRS : ℕ := 2

/-- Configuration constant `MIN_EXPERT_TOTAL_LINES` from `config.py`. -/
def MIN_EXPERT_TOTAL_LINES : ℕ := 500

/-- A pull-request record as consumed by the ranking engine
(`src/query.py`): the fields of the search-result dictionaries that the
ranking code reads.  `merged_date` is kept as an opaque string; the
recency computation over it is a parameter of the embedding. -/
structure PR where
  author : String
  title : String
  similarity_score : ℚ
  lines_changed : ℕ
  complexity_score : ℚ
  impact_score : ℚ
  has_tests : Bool
  has_docs : Bool
  review_comments_count : ℕ
  tech_keywords : List String
  merged_date : String
  deriving DecidableEq, Repr

/-- `combined_score` from `ExpertFinder._rank_experts` (`src/query.py`
lines 124-155), translated statement by statement. -/
def combined_score (pr : PR) : ℚ :=
  let similarity := pr.similarity_score
  let lines := pr.lines_changed
  let lines_normalized := min ((lines : ℚ) / 5000) 1
  let size_boost :=
    if MIN_SUBSTANTIAL_PR_LINES ≤ lines then 0.15 * lines_normalized
    else 0.05 * lines_normalized
  let complexity_boost := pr.complexity_score * 0.10
  let impact_boost := pr.impact_score * 0.08
  let quality_boost :=
    (if pr.has_tests then (0.03 : ℚ) else 0) +
    (if pr.has_docs then (0.02 : ℚ) else 0) +
    (if 5 < pr.review_comments_count then (0.03 : ℚ) else 0)
  similarity * (1 + size_boost + complexity_boost + impact_boost + quality_boost)

/-- `sizeBoost` as the specification words it:
`f(lines_changed) × (0.15 if lines_changed ≥ substantialThreshold else 0.05)`
with `f(x) = min(x / 5000, 1)`. -/
def specSizeBoost (pr : PR) : ℚ :=
  min ((pr.lines_changed : ℚ) / 5000) 1 *
    (if MIN_SUBSTANTIAL_PR_LINES ≤ pr.lines_changed then 0.15 else 0.05)

/-- `qualityBoost` as the specification words it:
`0.03·[has_tests] + 0.02·[has_docs] + 0.03·[review_comments_count > 5]`. -/
def specQualityBoost (pr : PR) : ℚ :=
  0.03 * (if pr.has_tests then 1 else 0) +
  0.02 * (if pr.has_docs then 1 else 0) +
  0.03 * (if 5 < pr.review_comments_count then 1 else 0)

/-- The combined score as the specification words it. -/
def specCombined (pr : PR) : ℚ :=
  pr.similarity_score *
    (1 + specSizeBoost pr + pr.complexity_score * 0.10 + pr.impact_score * 0.08 +
      specQualityBoost pr)

/-- C1: the per-candidate combined score equals
`similarity × (1 + sizeBoost + complexityBoost + impactBoost + qualityBoost)`
with the boosts exactly as the specification defines them. -/
theorem C1_combined_score_formula (pr : PR) :
    combined_score pr = specCombined pr := by
  unfold combined_score specCombined specSizeBoost specQualityBoost
  rcases pr with ⟨a, t, s, lines, cx, im, ht, hd, rc, tk, md⟩
  simp only
  by_cases hsub : MIN_SUBSTANTIAL_PR_LINES ≤ lines <;>
    cases ht <;> cases hd <;>
    by_cases hrc : 5 < rc <;>
    simp [hsub, hrc] <;> ring_nf <;> tauto

/-- Insert `x` into `l`, after every element whose key is at least
`key x`.  Folding this over a list from the left yields Python's stable
`list.sort(key=..., reverse=True)`: ties keep their original order. -/
def insertTail {α β : Type} [LinearOrder β] (key : α → β) (x : α) : List α → List α
  | [] => [x]
  | y :: ys => if key x ≤ key y then y :: insertTail key x ys else x :: y :: ys

/-- Stable descending sort by a key, modelling Python's
`list.sort(key=..., reverse=True)`. -/
def sortDesc {α β : Type} [LinearOrder β] (key : α → β) (l : List α) : List α :=
  l.foldl (fun acc x => insertTail key x acc) []

theorem mem_insertTail {α β : Type} [LinearOrder β] (key : α → β) (x z : α)
    (l : List α) : z ∈ insertTail key x l ↔ z = x ∨ z ∈ l := by
  induction l with
  | nil => simp [ insertTail]
  | cons y ys ih =>
    by_cases h : key x ≤ key y <;> simp [ insertTail, h, ih]
    tauto

theorem mem_foldl_insertTail {α β : Type} [LinearOrder β] (key : α → β)
    (l : List α) : ∀ (acc : List α) (z : α),
    z ∈ l.foldl (fun acc x => insertTail key x acc) acc ↔ z ∈ acc ∨ z ∈ l := by
  induction l with
  | nil => intro acc z; simp
  | cons y ys ih =>
    intro acc z
    simp only [List.foldl_cons, ih, mem_insertTail, List.mem_cons]
    tauto

theorem mem_sortDesc {α β : Type} [LinearOrder β] (key : α → β) (l : List α)
    (z : α) : z ∈ sortDesc key l ↔ z ∈ l := by
  simp [sortDesc, mem_foldl_insertTail]

theorem length_insertTail {α β : Type} [LinearOrder β] (key : α → β) (x : α)
    (l : List α) : (insertTail key x l).length = l.length + 1 := by
  induction l with
  | nil => rfl
  | cons y ys ih =>
    by_cases h : key x ≤ key y <;> simp [ insertTail, h, ih]

theorem length_foldl_insertTail {α β : Type} [LinearOrder β] (key : α → β)
    (l : List α) : ∀ acc : List α,
    (l.foldl (fun acc x => insertTail key x acc) acc).length =
      acc.length + l.length := by
  induction l with
  | nil => intro acc; simp
  | cons y ys ih =>
    intro acc
    simp only [List.foldl_cons, ih, length_insertTail, List.length_cons]
    omega

theorem length_sortDesc {α β : Type} [LinearOrder β] (key : α → β)
    (l : List α) : (sortDesc key l).length = l.length := by
  simp [sortDesc, length_foldl_insertTail]

/-- Position weights for the top-5 average (`src/query.py` line 167). -/
def top5Weights : List ℚ := [1, 0.8, 0.6, 0.4, 0.2]

/-- Append `pr` to its author's group, keeping authors in order of first
appearance and records in insertion order, as Python's `defaultdict`
iteration does. -/
def addToGroup (pr : PR) : List (String × List PR) → List (String × List PR)
  | [] => [(pr.author, [pr])]
  | (a, g) :: rest =>
    if a = pr.author then (a, g ++ [pr]) :: rest
    else (a, g) :: addToGroup pr rest

/-- The author grouping from `ExpertFinder._rank_experts`
(`src/query.py` lines 110-115): a record whose `author` key is missing
defaults to the empty string and any record with a falsy author is
skipped. -/
def groupByAuthor (prs : List PR) : List (String × List PR) :=
  prs.foldl (fun acc pr => if pr.author = "" then acc else addToGroup pr acc) []

/-- Remove duplicates keeping the first occurrence, modelling Python
dictionary key order. -/
def dedupFirst : List String → List String
  | [] => []
  | x :: xs => x :: dedupFirst (xs.filter (fun y => decide (y ≠ x)))
termination_by l => l.length
decreasing_by
  simp only [List.length_cons]
  exact Nat.lt_succ_of_le (List.length_filter_le _ _)

/-- `tech_frequency` from `src/query.py` lines 173-181: how often each
technology token occurs across the author's candidate group, as
`(token, count)` pairs in first-appearance order. -/
def techFrequency (group : List PR) : List (String × ℕ) :=
  let kws := (group.map PR.tech_keywords).flatten
  (dedupFirst kws).map (fun t => (t, kws.count t))

/-- `tech_depth_score` from `src/query.py` lines 185-191: the average
frequency of the top 3 technologies, normalized by 5 and capped at 1;
zero when the author's group carries no technology tokens. -/
def tech_depth_score (group : List PR) : ℚ :=
  let freq := techFrequency group
  if freq = [] then 0
  else
    let top_techs := (sortDesc (fun p => p.2) freq).take 3
    let avg_top_frequency :=
      ((top_techs.map (fun p => (p.2 : ℚ))).sum) / (top_techs.length : ℚ)
    min (avg_top_frequency / 5) 1

/-- The final-score combination from `src/query.py` line 207. -/
def final_score (similarity recency weight : ℚ) : ℚ :=
  similarity * (1 - weight) + recency * weight

/-- The engine's output unit: the fields of the expert dictionary built
in `src/query.py` lines 213-249 that carry ranking state.  Presentation
fields (`github_url`, `best_pr`, `top_prs`, `tech_expertise`,
`tech_specialization`) are copies of data already modelled and no claim
reads them, so they are not repeated here. -/
structure Expert where
  author : String
  score : ℚ
  similarity_score : ℚ
  recency_score : ℚ
  tech_depth_score : ℚ
  total_relevant_prs : ℕ
  total_lines_changed : ℕ
  substantial_prs_count : ℕ
  deriving DecidableEq, Repr

/-- A default record for `List.headD`; author groups are nonempty by
construction so it is never actually selected. -/
def defaultPR : PR :=
  ⟨"", "", 0, 0, 0, 0, false, false, 0, [], ""⟩

/-- The per-author scoring of `ExpertFinder._rank_experts`
(`src/query.py` lines 119-251).  `recencyOf` models
`_calculate_recency_score` on a merged-date string.  The aggregations
over the group (totals, counts, tech frequency) are order-independent,
so they are computed over the group as given rather than over the
sorted copy the Python code iterates. -/
def scoreAuthor (recencyOf : String → ℚ) (recency_weight : ℚ)
    (author : String) (group : List PR) : Expert :=
  let sorted := sortDesc combined_score group
  let best_pr := sorted.headD defaultPR
  let top_5_scores := (sorted.take 5).map combined_score
  let weights := top5Weights.take top_5_scores.length
  let weighted_avg :=
    ((top_5_scores.zip weights).map (fun p => p.1 * p.2)).sum / weights.sum
  let total_lines := (group.map PR.lines_changed).sum
  let depth := tech_depth_score group
  let volume_boost := min ((group.length : ℚ) / 10) 1
  let substantial_count :=
    (group.filter (fun pr => decide (MIN_SUBSTANTIAL_PR_LINES ≤ pr.lines_changed))).length
  let substantial_boost := min ((substantial_count : ℚ) / 5) 0.2
  let tech_specialization_boost := depth * 0.15
  let similarity :=
    weighted_avg * (0.7 + 0.3 * volume_boost) *
      (1 + substantial_boost + tech_specialization_boost)
  let recency := recencyOf best_pr.merged_date
  { author := author
    score := final_score similarity recency recency_weight
    similarity_score := similarity
    recency_score := recency
    tech_depth_score := depth
    total_relevant_prs := group.length
    total_lines_changed := total_lines
    substantial_prs_count := substantial_count }

/-- The expert-quality predicate from `src/query.py` lines 260-264. -/
def meetsMinimum (e : Expert) : Bool :=
  decide (MIN_EXPERT_PRS ≤ e.total_relevant_prs) ||
  decide (MIN_EXPERT_TOTAL_LINES ≤ e.total_lines_changed)

/-- The minimum-expertise filter with its empty-fallback
(`src/query.py` lines 256-271). -/
def filterExperts (experts : List Expert) : List Expert :=
  let filtered := experts.filter meetsMinimum
  if filtered = [] then experts else filtered

/-- `ExpertFinder._rank_experts` (`src/query.py` lines 99-273): group
by author, score each group, sort by final score descending, apply the
minimum-expertise filter. -/
def rank_experts (recencyOf : String → ℚ) (prs : List PR)
    (recency_weight : ℚ) : List Expert :=
  let groups := groupByAuthor prs
  let experts := groups.map (fun ag => scoreAuthor recencyOf recency_weight ag.1 ag.2)
  filterExperts (sortDesc Expert.score experts)

/-- The substantiality filter of `ExpertFinder.find_experts`
(`src/query.py` lines 70-87). -/
def substantialFilter (results : List PR) : List PR :=
  let substantial_prs :=
    results.filter (fun pr => decide (MIN_SUBSTANTIAL_PR_LINES ≤ pr.lines_changed))
  if substantial_prs ≠ [] then
    if 20 ≤ substantial_prs.length then substantial_prs
    else
      let smaller_prs :=
        results.filter (fun pr => decide (pr.lines_changed < MIN_SUBSTANTIAL_PR_LINES))
      let smaller_sorted := sortDesc PR.lines_changed smaller_prs
      substantial_prs ++ smaller_sorted.take (max 10 (20 - substantial_prs.length))
  else results

/-- The zero vector returned on embedding failure
(`src/embedder.py` line 93). -/
def zeroVector (dim : ℕ) : List ℚ := List.replicate dim 0

/-- `PREmbedder.generate_embedding` (`src/embedder.py` lines 66-93)
with an empty in-process cache: `embedImpl` models the provider call,
`none` meaning the provider raised; on failure the zero vector of the
configured dimension is returned instead of raising. -/
def generate_embedding (embedImpl : String → Option (List ℚ)) (dim : ℕ)
    (text : String) : List ℚ :=
  match embedImpl text with
  | some e => e
  | none => zeroVector dim

/-- `ExpertFinder.find_experts` (`src/query.py` lines 24-97): embed the
query, search the vector index, sort by similarity descending, apply
the substantiality filter, rank, and keep the first `top_n` experts.
`search` models `QdrantDB.search` for the query at hand. -/
def find_experts (embedImpl : String → Option (List ℚ)) (dim : ℕ)
    (search : List ℚ → List PR) (recencyOf : String → ℚ)
    (query : String) (top_n : ℕ) (recency_weight : ℚ) : List Expert :=
  let query_embedding := generate_embedding embedImpl dim query
  let results := search query_embedding
  let sortedResults := sortDesc PR.similarity_score results
  let filtered := substantialFilter sortedResults
  (rank_experts recencyOf filtered recency_weight).take top_n

/-- `techDepth` as the claim words it: the average frequency of the
author's top 3 technology tokens, divided by 5 and capped at 1. -/
def specTechDepth (group : List PR) : ℚ :=
  let top := (sortDesc (fun p => p.2) (techFrequency group)).take 3
  min ((((top.map (fun p => (p.2 : ℚ))).sum) / (top.length : ℚ)) / 5) 1

/-- The aggregate similarity score as the claim words it: weighted
average of the top 5 combined scores with weights `[1, 0.8, 0.6, 0.4,
0.2]` truncated to the group size, multiplied by the volume factor and
by the substantial and specialization boosts. -/
def specSimilarityScore (group : List PR) : ℚ :=
  let topScores := ((sortDesc combined_score group).take 5).map combined_score
  let usedWeights := top5Weights.take group.length
  let weightedAvg :=
    ((topScores.zip usedWeights).map (fun p => p.1 * p.2)).sum / usedWeights.sum
  let volumeBoost := min ((group.length : ℚ) / 10) 1
  let substantialCount :=
    (group.filter (fun pr => decide (MIN_SUBSTANTIAL_PR_LINES ≤ pr.lines_changed))).length
  let substantialBoost := min ((substantialCount : ℚ) / 5) 0.2
  weightedAvg * (0.7 + 0.3 * volumeBoost) *
    (1 + substantialBoost + specTechDepth group * 0.15)

theorem tech_depth_eq_spec (group : List PR) :
    tech_depth_score group = specTechDepth group := by
  unfold tech_depth_score specTechDepth
  by_cases h : techFrequency group = []
  · simp [h, sortDesc]
  · simp [h]

theorem take_top5Weights (n : ℕ) :
    top5Weights.take (min 5 n) = top5Weights.take n := by
  have h5 : top5Weights.length = 5 := rfl
  rcases le_total n 5 with h | h
  · rw [min_eq_right h]
  · rw [min_eq_left h]
    rw [List.take_of_length_le (le_of_eq h5),
        List.take_of_length_le (by rw [h5]; exact h)]

/-- C2: the per-author aggregate similarity score computed by the
engine equals the specification's formula. -/
theorem C2_similarity_aggregate (recencyOf : String → ℚ) (w : ℚ)
    (author : String) (group : List PR) :
    (scoreAuthor recencyOf w author group).similarity_score =
      specSimilarityScore group := by
  unfold scoreAuthor specSimilarityScore
  simp only
  have hlen : (((sortDesc combined_score group).take 5).map combined_score).length
      = min 5 group.length := by
    simp [List.length_take, length_sortDesc]
  rw [hlen, take_top5Weights, tech_depth_eq_spec]

theorem name_mem_addToGroup (pr : PR) (acc : List (String × List PR))
    (p : String × List PR) (hp : p ∈ addToGroup pr acc) :
    p.1 = pr.author ∨ ∃ q ∈ acc, p.1 = q.1 := by
  induction acc with
  | nil =>
    simp [ addToGroup] at hp
    left; rw [hp]
  | cons hd rest ih =>
    rcases hd with ⟨a, g⟩
    by_cases ha : a = pr.author
    · simp [ addToGroup, ha] at hp
      rcases hp with hp | hp
      · left; rw [hp]
      · right; exact ⟨p, List.mem_cons_of_mem _ hp, rfl⟩
    · simp [ addToGroup, ha] at hp
      rcases hp with hp | hp
      · right; exact ⟨(a, g), List.mem_cons_self _ _, by rw [hp]⟩
      · rcases ih hp with h | ⟨q, hq, hpq⟩
        · left; exact h
        · right; exact ⟨q, List.mem_cons_of_mem _ hq, hpq⟩

theorem groupByAuthor_aux_names (prs : List PR) :
    ∀ acc : List (String × List PR), (∀ p ∈ acc, p.1 ≠ "") →
      ∀ p ∈ prs.foldl
        (fun acc pr => if pr.author = "" then acc else addToGroup pr acc) acc,
      p.1 ≠ "" := by
  induction prs with
  | nil => intro acc hacc p hp; exact hacc p hp
  | cons pr rest ih =>
    intro acc hacc p hp
    simp only [List.foldl_cons] at hp
    by_cases ha : pr.author = ""
    · rw [if_pos ha] at hp; exact ih acc hacc p hp
    · rw [if_neg ha] at hp
      refine ih _ ?_ p hp
      intro q hq
      rcases name_mem_addToGroup pr acc q hq with h | ⟨r, hr, hq1⟩
      · rw [h]; exact ha
      · rw [hq1]; exact hacc r hr

theorem groupByAuthor_names (prs : List PR) :
    ∀ p ∈ groupByAuthor prs, p.1 ≠ "" := by
  intro p hp
  exact groupByAuthor_aux_names prs [] (by intro q hq; cases hq) p hp

theorem mem_filterExperts (l : List Expert) (e : Expert)
    (he : e ∈ filterExperts l) : e ∈ l := by
  unfold filterExperts at he
  by_cases h : l.filter meetsMinimum = []
  · simpa [h] using he
  · simp only [if_neg h] at he
    exact List.mem_of_mem_filter he

theorem mem_rank_experts (recencyOf : String → ℚ) (w : ℚ) (prs : List PR)
    (e : Expert) (he : e ∈ rank_experts recencyOf prs w) :
    ∃ ag ∈ groupByAuthor prs, e = scoreAuthor recencyOf w ag.1 ag.2 := by
  unfold rank_experts at he
  have h1 := mem_filterExperts _ _ he
  rw [mem_sortDesc] at h1
  rcases List.mem_map.1 h1 with ⟨ag, hag, hE⟩
  exact ⟨ag, hag, hE.symm⟩

theorem groupByAuthor_aux_filter (prs : List PR) :
    ∀ acc : List (String × List PR),
      prs.foldl
        (fun acc pr => if pr.author = "" then acc else addToGroup pr acc) acc =
      (prs.filter (fun pr => decide (pr.author ≠ ""))).foldl
        (fun acc pr => if pr.author = "" then acc else addToGroup pr acc) acc := by
  induction prs with
  | nil => intro acc; rfl
  | cons pr rest ih =>
    intro acc
    by_cases ha : pr.author = ""
    · have hf : List.filter (fun pr => decide (pr.author ≠ "")) (pr :: rest)
          = List.filter (fun pr => decide (pr.author ≠ "")) rest := by
        simp [List.filter_cons, ha]
      rw [hf, List.foldl_cons, if_pos ha]
      exact ih acc
    · have hf : List.filter (fun pr => decide (pr.author ≠ "")) (pr :: rest)
          = pr :: List.filter (fun pr => decide (pr.author ≠ "")) rest := by
        simp [List.filter_cons, ha]
      rw [hf, List.foldl_cons, List.foldl_cons]
      exact ih _

/-- C10: records with a missing or empty author are discarded before
grouping — the grouping is unchanged by removing them — and no returned
profile carries an empty author. -/
theorem C10_empty_author_discarded (recencyOf : String → ℚ) (w : ℚ)
    (prs : List PR) :
    groupByAuthor prs =
      groupByAuthor (prs.filter (fun pr => decide (pr.author ≠ ""))) ∧
    ∀ e ∈ rank_experts recencyOf prs w, e.author ≠ "" := by
  constructor
  · exact groupByAuthor_aux_filter prs []
  · intro e he
    rcases mem_rank_experts recencyOf w prs e he with ⟨ag, hag, rfl⟩
    have := groupByAuthor_names prs ag hag
    simpa [scoreAuthor] using this

/-- A concrete candidate used by the witnesses. -/
def exPR : PR :=
  ⟨"alice", "optimize resolver batching", 1, 600, 1, 0, true, false, 0,
    ["graphql", "react"], "2024-01-01"⟩

/-- A default profile for `List.headD` in the witnesses. -/
def defaultExpert : Expert := ⟨"", 0, 0, 0, 0, 0, 0, 0⟩

theorem C10_witness :
    ((rank_experts (fun _ => 0) [exPR] 0).head (by decide)).author ≠ "" :=
  (C10_empty_author_discarded (fun _ => 0) 0 [exPR]).2 _ (List.head_mem _)

/-- C7: with `recency_weight = 0` every profile's final score equals
its aggregate similarity score, with `recency_weight = 1` it equals its
recency score, and in general the final score is the stated convex
combination of the two. -/
theorem C7_recency_weight_extremes (recencyOf : String → ℚ)
    (author : String) (group : List PR) :
    (scoreAuthor recencyOf 0 author group).score =
      (scoreAuthor recencyOf 0 author group).similarity_score ∧
    (scoreAuthor recencyOf 1 author group).score =
      (scoreAuthor recencyOf 1 author group).recency_score ∧
    (∀ w s r : ℚ, final_score s r w = s * (1 - w) + r * w) := by
  refine ⟨?_, ?_, fun w s r => rfl⟩ <;> simp [scoreAuthor, final_score]

/-- C4: the minimum-expertise filter keeps a profile exactly when it
meets the OR condition, falls back to the unfiltered list when nothing
qualifies, and never empties a non-empty list. -/
theorem C4_minimum_filter (experts : List Expert) :
    ((∃ e ∈ experts, meetsMinimum e = true) →
      filterExperts experts = experts.filter meetsMinimum) ∧
    ((∀ e ∈ experts, meetsMinimum e = false) →
      filterExperts experts = experts) ∧
    (experts ≠ [] → filterExperts experts ≠ []) ∧
    (∀ e : Expert, meetsMinimum e = true ↔
      (MIN_EXPERT_PRS ≤ e.total_relevant_prs ∨
        MIN_EXPERT_TOTAL_LINES ≤ e.total_lines_changed)) := by
  refine ⟨?_, ?_, ?_, ?_⟩
  · intro ⟨e, he, hme⟩
    unfold filterExperts
    have : experts.filter meetsMinimum ≠ [] := by
      intro hnil
      have := List.filter_eq_nil_iff.1 hnil e he
      simp [hme] at this
    simp [this]
  · intro hall
    unfold filterExperts
    have : experts.filter meetsMinimum = [] :=
      List.filter_eq_nil_iff.2 (fun e he => by simp [hall e he])
    simp [this]
  · intro hne
    unfold filterExperts
    by_cases h : experts.filter meetsMinimum = [] <;> simp [h, hne]
  · intro e
    unfold meetsMinimum
    simp

/-- A profile below both thresholds, used by the C4 witness. -/
def lowExpert : Expert := ⟨"bob", 0, 0, 0, 0, 1, 0, 0⟩

theorem C4_witness : filterExperts [lowExpert] ≠ [] :=
  (C4_minimum_filter [lowExpert]).2.2.1 (by decide)

/-- The substantiality filter as the claim words it: the top-up of
largest non-substantial candidates is applied also when zero candidates
are substantial. -/
def claimSubstantialFilter (results : List PR) : List PR :=
  let substantial :=
    results.filter (fun pr => decide (MIN_SUBSTANTIAL_PR_LINES ≤ pr.lines_changed))
  if 20 ≤ substantial.length then substantial
  else
    let other :=
      results.filter (fun pr => decide (pr.lines_changed < MIN_SUBSTANTIAL_PR_LINES))
    substantial ++ (sortDesc PR.lines_changed other).take (max 10 (20 - substantial.length))

/-- A trivial (zero-line) candidate for the C3 counterexample. -/
def smallPR : PR := ⟨"a", "t", 0, 0, 0, 0, false, false, 0, [], ""⟩

/-- Twenty-one non-substantial candidates. -/
def ex21 : List PR := List.replicate 21 smallPR

/-- C3 counterexample: with 21 candidates of which zero are
substantial, the code keeps all 21 unchanged, while the claimed rule
would keep only the 20 largest. -/
theorem C3_counterexample :
    substantialFilter ex21 ≠ claimSubstantialFilter ex21 := by
  intro h
  have hl : (substantialFilter ex21).length = (claimSubstantialFilter ex21).length := by
    rw [h]
  have h1 : (substantialFilter ex21).length = 21 := by decide
  have h2 : (claimSubstantialFilter ex21).length = 20 := by decide
  omega

/-- The substantiality filter as amended: when zero candidates are
substantial the candidate list is returned unchanged; otherwise the
claimed rule applies. -/
def amendedSubstantialFilter (results : List PR) : List PR :=
  let substantial :=
    results.filter (fun pr => decide (MIN_SUBSTANTIAL_PR_LINES ≤ pr.lines_changed))
  if substantial = [] then results
  else if 20 ≤ substantial.length then substantial
  else
    let other :=
      results.filter (fun pr => decide (pr.lines_changed < MIN_SUBSTANTIAL_PR_LINES))
    substantial ++ (sortDesc PR.lines_changed other).take (max 10 (20 - substantial.length))

/-- C3 as amended: the code's substantiality filter keeps only the
substantial candidates when at least 20 exist, otherwise keeps them all
plus the largest non-substantial ones up to the stated floor, except
that with zero substantial candidates the whole list is kept
unchanged. -/
theorem C3_amended_substantial_filter (results : List PR) :
    substantialFilter results = amendedSubstantialFilter results := by
  unfold substantialFilter amendedSubstantialFilter
  by_cases h :
      results.filter (fun pr => decide (MIN_SUBSTANTIAL_PR_LINES ≤ pr.lines_changed)) = [] <;>
    simp [h]

/-- `PRCacheManager.is_cached` (`src/cache_manager.py` lines 45-63).
The index is modelled as a partial map from repository name to the age
of its entry in whole days (`(datetime.now() - cached_time).days`); no
entry means the repository is absent from the index. -/
def is_cached (index : String → Option ℤ) (repo : String)
    (max_age_days : ℤ) : Bool :=
  match index repo with
  | none => false
  | some age_days => decide (age_days < max_age_days)

/-- C8: freshness is monotone in the allowed age, and holds exactly
when an index entry exists whose age in whole days lies strictly below
the bound. -/
theorem C8_is_cached_fresh (index : String → Option ℤ) (repo : String)
    (N M A : ℤ) :
    (0 ≤ N → N ≤ M → is_cached index repo N = true →
      is_cached index repo M = true) ∧
    (is_cached index repo A = true ↔
      ∃ age, index repo = some age ∧ age < A) := by
  cases h : index repo <;> simp [ is_cached, h]
  omega

/-- A concrete index for the C8 witness: one entry, four days old. -/
def exIndex : String → Option ℤ :=
  fun r => if r = "facebook/react" then some 4 else none

theorem C8_witness : is_cached exIndex "facebook/react" 7 = true :=
  (C8_is_cached_fresh exIndex "facebook/react" 5 7 0).1 (by decide) (by decide)
    (by decide)

/-- The cache as `get_or_scrape_repos` observes it
(`src/cache_manager.py` lines 195-224): `fresh repo` is
`is_cached(repo, max_cache_age_days)` and `store repo` is what
`get_cached_prs(repo)` returns (`none` when nothing usable is
cached). -/
structure ScrapeCache where
  fresh : String → Bool
  store : String → Option (List PR)

/-- `PRCacheManager.cache_prs` as observed through the same interface:
the repository's records are overwritten and its index entry freshly
stamped. -/
def cache_prs (c : ScrapeCache) (repo : String) (prs : List PR) : ScrapeCache :=
  { fresh := fun r => if r = repo then true else c.fresh r
    store := fun r => if r = repo then some prs else c.store r }

/-- `get_or_scrape_repos` (`src/cache_manager.py` lines 173-224).
`scraper_func repo = none` models `scraper_func(repo)` raising; the
Python truthiness tests on `cached_prs` are the `isEmpty` checks. -/
def get_or_scrape_repos (scraper_func : String → Option (List PR))
    (force_refresh : Bool) :
    List String → ScrapeCache → List PR
  | [], _ => []
  | repo :: rest, c =>
    let cached_hit : Option (List PR) :=
      if !force_refresh && c.fresh repo then
        match c.store repo with
        | some prs => if prs.isEmpty then none else some prs
        | none => none
      else none
    match cached_hit with
    | some prs => prs ++ get_or_scrape_repos scraper_func force_refresh rest c
    | none =>
      match scraper_func repo with
      | some prs =>
        prs ++ get_or_scrape_repos scraper_func force_refresh rest (cache_prs c repo prs)
      | none =>
        (match c.store repo with
         | some prs => if prs.isEmpty then [] else prs
         | none => []) ++ get_or_scrape_repos scraper_func force_refresh rest c

/-- C5: when scraping `repo` raises, `repo` contributes exactly its
cached records (possibly stale, possibly none), the call itself never
fails, and the remaining repositories are processed against an
unchanged cache, so no other repository's records are affected. -/
theorem C5_scrape_failure_fallback (scraper_func : String → Option (List PR))
    (force_refresh : Bool) (repo : String) (rest : List String)
    (c : ScrapeCache) (hfail : scraper_func repo = none) :
    get_or_scrape_repos scraper_func force_refresh (repo :: rest) c =
      ((c.store repo).getD []) ++
        get_or_scrape_repos scraper_func force_refresh rest c := by
  simp only [get_or_scrape_repos]
  cases hfr : (!force_refresh && c.fresh repo) with
  | false =>
    cases hs : c.store repo with
    | none => simp [hfr, hfail, hs]
    | some prs => by_cases hn : prs = [] <;> simp [hfr, hfail, hs, hn]
  | true =>
    cases hs : c.store repo with
    | none => simp [hfr, hfail, hs]
    | some prs => by_cases hn : prs = [] <;> simp [hfr, hfail, hs, hn]

/-- A cache holding stale records for one repository, for the C5
witness. -/
def exCache : ScrapeCache :=
  { fresh := fun _ => false
    store := fun r => if r = "facebook/react" then some [exPR] else none }

theorem C5_witness :
    get_or_scrape_repos (fun _ => none) false ["facebook/react"] exCache =
      [exPR] ++ get_or_scrape_repos (fun _ => none) false [] exCache :=
  C5_scrape_failure_fallback (fun _ => none) false "facebook/react" [] exCache rfl

/-- The on-disk state `PRCacheManager.get_cached_prs` interacts with
(`src/cache_manager.py` lines 65-94): whether a repository is in the
index, whether its payload file exists, and the payload's parse result,
`none` modelling a readable but corrupt payload whose load raises. -/
structure CacheState where
  index : String → Bool
  file_exists : String → Bool
  payload : String → Option (List PR)

/-- `PRCacheManager.get_cached_prs` (`src/cache_manager.py` lines
65-94), returning the records (or absent) together with the state
after any self-healing of the index. -/
def get_cached_prs (s : CacheState) (repo : String) :
    Option (List PR) × CacheState :=
  if s.index repo = false then (none, s)
  else if s.file_exists repo = false then
    (none, { s with index := fun r => if r = repo then false else s.index r })
  else
    match s.payload repo with
    | some prs => (some prs, s)
    | none => (none, s)

/-- A state whose single indexed repository has a readable but corrupt
payload, for the C6 counterexample. -/
def corruptState : CacheState :=
  { index := fun r => r == "facebook/react"
    file_exists := fun r => r == "facebook/react"
    payload := fun _ => none }

/-- C6 counterexample: on a readable-but-corrupt payload the get
operation returns absent, yet the index entry is NOT pruned — against
the claim that every payload the index cannot serve prunes its
entry. -/
theorem C6_counterexample :
    (get_cached_prs corruptState "facebook/react").1 = none ∧
    (get_cached_prs corruptState "facebook/react").2.index "facebook/react"
      = true := by
  constructor <;> decide

/-- C6 as amended: the get operation is total, a missing payload file
prunes the index entry and yields absent, a readable-but-corrupt
payload yields absent with the index entry retained, and a healthy
payload is returned with the state unchanged. -/
theorem C6_amended_get_behavior (s : CacheState) (repo : String) :
    (s.index repo = false → get_cached_prs s repo = (none, s)) ∧
    (s.index repo = true → s.file_exists repo = false →
      (get_cached_prs s repo).1 = none ∧
      (get_cached_prs s repo).2.index repo = false) ∧
    (s.index repo = true → s.file_exists repo = true → s.payload repo = none →
      get_cached_prs s repo = (none, s)) ∧
    (∀ prs, s.index repo = true → s.file_exists repo = true →
      s.payload repo = some prs → get_cached_prs s repo = (some prs, s)) := by
  refine ⟨fun h1 => ?_, fun h1 h2 => ?_, fun h1 h2 h3 => ?_, fun prs h1 h2 h3 => ?_⟩ <;>
    simp [get_cached_prs, h1]
  · simp [h2]
  · simp [h2, h3]
  · simp [h2, h3]

/-- A state with one healthy cached repository, for the C6 witness. -/
def healthyState : CacheState :=
  { index := fun r => r == "facebook/react"
    file_exists := fun r => r == "facebook/react"
    payload := fun r => if r == "facebook/react" then some [exPR] else none }

theorem C6_witness :
    get_cached_prs healthyState "facebook/react" = (some [exPR], healthyState) :=
  (C6_amended_get_behavior healthyState "facebook/react").2.2.2 [exPR] (by decide)
    (by decide) (by decide)

/-- C9 counterexample: a run whose embedding step fails (the provider
raises, so the query degrades to the zero vector) and a run with a
working embedding over an empty relevant corpus return identical
values — the two situations cannot be told apart from the result of
`find_experts`. -/
theorem C9_counterexample :
    find_experts (fun _ => none) 384 (fun _ => []) (fun _ => 0)
        "optimize graphql resolvers" 10 (1/10) =
      find_experts (fun _ => some (List.replicate 384 (1 : ℚ))) 384
        (fun _ => []) (fun _ => 0) "optimize graphql resolvers" 10 (1/10) := rfl

/-- C9 as amended: an embedding failure degrades the query to the zero
vector and the pipeline proceeds; the returned list carries no failure
marker, so whenever the search yields nothing for the zero vector the
failed run's result coincides with a genuine empty-corpus result. -/
theorem C9_amended_zero_vector_degradation (dim : ℕ)
    (search : List ℚ → List PR) (recencyOf : String → ℚ)
    (query q2 : String) (top_n : ℕ) (w : ℚ)
    (hempty : search (zeroVector dim) = []) :
    generate_embedding (fun _ => none) dim query = zeroVector dim ∧
    find_experts (fun _ => none) dim search recencyOf query top_n w =
      find_experts (fun _ => some (zeroVector dim)) dim (fun _ => [])
        recencyOf q2 top_n w := by
  refine ⟨rfl, ?_⟩
  unfold find_experts generate_embedding
  simp [hempty]

theorem C9_witness :
    generate_embedding (fun _ => none) 3 "q" = zeroVector 3 ∧
    find_experts (fun _ => none) 3 (fun _ => []) (fun _ => 0) "q" 10 0 =
      find_experts (fun _ => some (zeroVector 3)) 3 (fun _ => []) (fun _ => 0)
        "q2" 10 0 :=
  C9_amended_zero_vector_degradation 3 (fun _ => []) (fun _ => 0) "q" "q2" 10 0 rfl

end Ezra
